import Mathlib

/-!
Shallow embedding of the spoo.me URL-shortener client (Rust crate `spoo_me`).

Strings are modelled as `List Char`; Rust `str::len` counts UTF-8 bytes, so the
length of a string is the sum of the UTF-8 sizes of its characters.  Rust
`str::contains(pat)` for an ASCII pattern holds iff the pattern occurs as a
contiguous run of characters: every byte of an ASCII pattern is below 0x80 and
such bytes never occur inside the multi-byte UTF-8 encoding of a non-ASCII
character, so a byte-level substring match always aligns with character
boundaries.  `char::is_alphabetic` (the Unicode `Alphabetic` property) is kept
abstract: definitions that consult it take the classifier as a parameter.
-/

namespace SpooMe

abbrev Str := List Char

/-- Rust `str::len`: the number of UTF-8 bytes of the string. -/
def rustStrLen (s : Str) : Nat := (s.map Char.utf8Size).sum

/-- Does `s` start with the pattern `p` (character-wise)? -/
def startsWith : Str → Str → Bool
  | [], _ => true
  | _ :: _, [] => false
  | p :: ps, c :: cs => p == c && startsWith ps cs

/-- Rust `str::contains(pat)` for an ASCII pattern `pat`: the pattern occurs as
a contiguous run of characters somewhere in `s`. -/
def containsSeq (pat : Str) : Str → Bool
  | [] => pat.isEmpty
  | c :: cs => startsWith pat (c :: cs) || containsSeq pat cs

/-- Remove the pattern `p` from the front of `s`; `none` if `s` does not start
with `p`. -/
def stripPre : Str → Str → Option Str
  | [], s => some s
  | _ :: _, [] => none
  | p :: ps, c :: cs => if p == c then stripPre ps cs else none

/-- Embedding of `src/utils.rs` `is_valid_password`: length ≥ 8 bytes, some alphabetic
character, some ASCII digit, some of `@`/`.`, and none of the adjacent pairs
`..`, `@@`, `@.`, `.@`.  `isAlph` stands for Rust `char::is_alphabetic`. -/
def is_valid_password (isAlph : Char → Bool) (pw : Str) : Bool :=
  let len_ok := 8 ≤ rustStrLen pw
  let has_letter := pw.any isAlph
  let has_digit := pw.any Char.isDigit
  let has_special := pw.any (fun c => c == '@' || c == '.')
  let no_consec := !containsSeq ("..".toList) pw && !containsSeq ("@@".toList) pw
      && !containsSeq ("@.".toList) pw && !containsSeq (".@".toList) pw
  len_ok && has_letter && has_digit && has_special && no_consec

/-- The `[^ "]+$` part of the URL regex: at least one character, none of which
is a space or a double quote. -/
def urlTail (s : Str) : Bool :=
  !s.isEmpty && s.all (fun c => !(c == ' ' || c == '"'))

/-- The anchored regex `^(ftp|http|https):\/\/[^ "]+$` from `src/utils.rs`. -/
def urlRegexMatch (s : Str) : Bool :=
  (match stripPre ("ftp://".toList) s with
   | some rest => urlTail rest
   | none => false)
  || (match stripPre ("http://".toList) s with
   | some rest => urlTail rest
   | none => false)
  || (match stripPre ("https://".toList) s with
   | some rest => urlTail rest
   | none => false)

/-- Embedding of `src/utils.rs` `is_valid_url` (the default build without the `custom_url`
feature): regex match, and neither `spoo.me` nor `..` occurs in the URL. -/
def is_valid_url (url : Str) : Bool :=
  urlRegexMatch url && !containsSeq ("spoo.me".toList) url
    && !containsSeq ("..".toList) url

/-- One character of the alias regex class `[a-zA-Z0-9_-]`. -/
def aliasCharOk (c : Char) : Bool :=
  c.isAlpha || c.isDigit || c == '_' || c == '-'

/-- Embedding of `src/utils.rs` `is_valid_alias`: matches `^[a-zA-Z0-9_-]*$`, non-empty, and
at most 15 bytes long. -/
def is_valid_alias (s : Str) : Bool :=
  s.all aliasCharOk && !s.isEmpty && rustStrLen s ≤ 15

/-- Modelled from the spec: `is_valid_max_clicks` is imported by
`src/client.rs` from `crate::utils` and called on every present `max_clicks`,
but its definition is not among the provided source files; the spec defines it
as true iff `n > 0`. -/
def is_valid_max_clicks (n : Nat) : Bool := decide (0 < n)

/-! ### Request model (`src/requests.rs`).  `u32` values are modelled as `Nat`
(the only property consulted is positivity). -/

structure ShortenRequest where
  url : Str
  «alias» : Option Str
  password : Option Str
  max_clicks : Option Nat
  block_bots : Option Bool

structure EmojiRequest where
  url : Str
  emojies : Option Str
  password : Option Str
  max_clicks : Option Nat
  block_bots : Option Bool

structure StatsRequest where
  short_code : Str
  password : Option Str

inductive ExportFormat where
  | JSON
  | CSV
  | XLSX
  | XML
  deriving DecidableEq

structure ExportRequest where
  short_code : Str
  export_format : ExportFormat
  password : Option Str

/-! ### Error model (`src/errors.rs`).  The `Http` and `Json` variants wrap
opaque transport/serde errors and never arise in the stages modelled here. -/

inductive ValidationError where
  | InvalidPasswordFormat (s : Str)
  | InvalidAliasFormat (s : Str)
  | InvalidUrlFormat (s : Str)
  | InvalidMaxClicks (n : Nat)
  | InvalidEmojiSequence (s : Str)
  deriving DecidableEq

inductive ApiError where
  | UrlError
  | AliasError
  | PasswordError
  | MaxClicksError
  | EmojiError
  | RateLimitExceeded
  | Other (s : Str)
  deriving DecidableEq

/-! ### Local validation stage.

Each client operation in `src/client.rs` begins with a sequence of
early-return validation checks before any network request is issued.  The
validation prologue of each blocking operation is textually identical to that
of its async sibling, so one definition per operation embeds both.  A result of
`some e` means the operation returns `Err(Validation(e))` without touching the
network; `none` means validation passed and the request is sent. -/

/-- The `if let Some(ref pw) = req.password { if !is_valid_password(pw) ... }`
prologue shared by shorten/emoji/stats. -/
def pwCheck (isAlph : Char → Bool) : Option Str → Option ValidationError
  | some pw =>
      if is_valid_password isAlph pw then none
      else some (ValidationError.InvalidPasswordFormat pw)
  | none => none

/-- The `if let Some(ref alias) = req.alias { if !is_valid_alias(alias) ... }`
prologue of the shorten operations. -/
def aliasCheck : Option Str → Option ValidationError
  | some a =>
      if is_valid_alias a then none
      else some (ValidationError.InvalidAliasFormat a)
  | none => none

/-- The `if let Some(max_clicks) = req.max_clicks { ... }` prologue of the
shorten/emoji operations. -/
def maxClicksCheck : Option Nat → Option ValidationError
  | some n =>
      if is_valid_max_clicks n then none
      else some (ValidationError.InvalidMaxClicks n)
  | none => none

/-- The `if !is_valid_url(&req.url) { ... }` check (default build: the
exclusion substring is the fixed host `spoo.me`). -/
def urlCheck (u : Str) : Option ValidationError :=
  if is_valid_url u then none else some (ValidationError.InvalidUrlFormat u)

/-- Sequencing of early returns: the first failing check decides the result. -/
def orElseErr : Option ValidationError → Option ValidationError → Option ValidationError
  | some e, _ => some e
  | none, r => r

/-- Validation prologue of `shorten` / `shorten_blocking`: password, then URL,
then alias, then max-clicks. -/
def shortenValidate (isAlph : Char → Bool) (req : ShortenRequest) :
    Option ValidationError :=
  orElseErr (pwCheck isAlph req.password)
    (orElseErr (urlCheck req.url)
      (orElseErr (aliasCheck req.«alias») (maxClicksCheck req.max_clicks)))

/-- Validation prologue of `emoji` / `emoji_blocking`: password, then URL,
then max-clicks.  The `emojies` field is never inspected. -/
def emojiValidate (isAlph : Char → Bool) (req : EmojiRequest) :
    Option ValidationError :=
  orElseErr (pwCheck isAlph req.password)
    (orElseErr (urlCheck req.url) (maxClicksCheck req.max_clicks))

/-- Validation prologue of `stats` / `stats_blocking`: empty-short-code check
(reported, as in the source, through the `InvalidPasswordFormat` variant with
a fixed message), then password, then alias-format check of the short code. -/
def statsValidate (isAlph : Char → Bool) (req : StatsRequest) :
    Option ValidationError :=
  if req.short_code.isEmpty then
    some (ValidationError.InvalidPasswordFormat ("Short code cannot be empty".toList))
  else
    orElseErr (pwCheck isAlph req.password)
      (if is_valid_alias req.short_code then none
       else some (ValidationError.InvalidAliasFormat req.short_code))

/-- Validation prologue of `export` / `export_blocking`: empty-short-code
check, then alias-format check of the short code.  The password field is not
validated. -/
def exportValidate (req : ExportRequest) : Option ValidationError :=
  if req.short_code.isEmpty then
    some (ValidationError.InvalidAliasFormat req.short_code)
  else if is_valid_alias req.short_code then none
  else some (ValidationError.InvalidAliasFormat req.short_code)

/-! ### Response interpretation stage.

After sending, each operation inspects the HTTP status and the body text.  The
body enters the error path only through two observations: whether
`serde_json::from_str::<Value>` succeeds on it and yields an object whose
`error` field is a string (and if so, which string), and otherwise its raw
text.  `Body` records exactly that quotient. -/

/-- The response body as observed by the error-classification code. -/
inductive Body where
  /-- The body parses as a JSON value with a string field `error` = `label`. -/
  | errJson (label : Str)
  /-- Anything else (non-JSON, or JSON without a string `error` field);
  carries the raw text. -/
  | raw (text : Str)
  deriving DecidableEq

/-- The classified error an operation returns (success paths, transport
failures and serde failures are outside this stage). -/
inductive ErrorResult where
  | Validation (e : ValidationError)
  | Api (e : ApiError)
  /-- Case `UrlShortenerError::Other(text)`: non-success body that did not yield a
  string `error` field. -/
  | Other (text : Str)
  deriving DecidableEq

/-- Embedding of `reqwest::StatusCode::is_success()`: 2xx. -/
def isSuccess (status : Nat) : Bool := 200 ≤ status && status ≤ 299

/-- The `match err { ... _ => ApiError::UrlError }` arm list as written in
`shorten`, `shorten_blocking`, `emoji_blocking`, `stats` and
`stats_blocking`: unrecognized labels fall back to `UrlError`. -/
def labelMapUrlDefault (err : Str) : ApiError :=
  if err = "UrlError".toList then ApiError.UrlError
  else if err = "AliasError".toList then ApiError.AliasError
  else if err = "PasswordError".toList then ApiError.PasswordError
  else if err = "MaxClicksError".toList then ApiError.MaxClicksError
  else if err = "EmojiError".toList then ApiError.EmojiError
  else ApiError.UrlError

/-- The `match err { ... err => ApiError::Other(err.to_string()) }` arm list
as written in `emoji`, `export` and `export_blocking`: unrecognized labels
fall back to `Other` carrying the raw label. -/
def labelMapOtherDefault (err : Str) : ApiError :=
  if err = "UrlError".toList then ApiError.UrlError
  else if err = "AliasError".toList then ApiError.AliasError
  else if err = "PasswordError".toList then ApiError.PasswordError
  else if err = "MaxClicksError".toList then ApiError.MaxClicksError
  else if err = "EmojiError".toList then ApiError.EmojiError
  else ApiError.Other err

/-- Shared shape of every operation's non-success handling: 429 → rate limit;
then JSON `error`-label mapping; then raw text.  `none` means the status was
2xx and the operation proceeds to decode the typed response. -/
def classifyWith (mapLabel : Str → ApiError) (status : Nat) (body : Body) :
    Option ErrorResult :=
  if isSuccess status then none
  else if status = 429 then some (ErrorResult.Api ApiError.RateLimitExceeded)
  else some (match body with
    | Body.errJson label => ErrorResult.Api (mapLabel label)
    | Body.raw text => ErrorResult.Other text)

/-- Error classification of `shorten` (async), `src/client.rs` lines 139-158. -/
def shortenClassify : Nat → Body → Option ErrorResult :=
  classifyWith labelMapUrlDefault

/-- Error classification of `shorten_blocking`, lines 218-238. -/
def shortenBlockingClassify : Nat → Body → Option ErrorResult :=
  classifyWith labelMapUrlDefault

/-- Error classification of `emoji` (async), lines 287-307: unrecognized
labels map to `ApiError::Other`. -/
def emojiClassify : Nat → Body → Option ErrorResult :=
  classifyWith labelMapOtherDefault

/-- Error classification of `emoji_blocking`, lines 355-375: unrecognized
labels map to `ApiError::UrlError`. -/
def emojiBlockingClassify : Nat → Body → Option ErrorResult :=
  classifyWith labelMapUrlDefault

/-- Error classification of `stats` (async), lines 415-435. -/
def statsClassify : Nat → Body → Option ErrorResult :=
  classifyWith labelMapUrlDefault

/-- Error classification of `stats_blocking`, lines 474-494. -/
def statsBlockingClassify : Nat → Body → Option ErrorResult :=
  classifyWith labelMapUrlDefault

/-- Error classification of `export` (async), lines 528-548. -/
def exportClassify : Nat → Body → Option ErrorResult :=
  classifyWith labelMapOtherDefault

/-- Error classification of `export_blocking`, lines 583-603. -/
def exportBlockingClassify : Nat → Body → Option ErrorResult :=
  classifyWith labelMapOtherDefault

/-! ### Spec-side predicates.

Independent declarative formulations of the validator properties, written from
the spec's sentences; the claim theorems relate them to the embedded code. -/

/-- Spec characterization of a valid password.  Lengths count UTF-8 bytes, as
Rust `str::len` does. -/
def passwordSpec (isAlph : Char → Bool) (s : Str) : Prop :=
  8 ≤ rustStrLen s
  ∧ (∃ c ∈ s, isAlph c = true)
  ∧ (∃ c ∈ s, '0' ≤ c ∧ c ≤ '9')
  ∧ (∃ c ∈ s, c = '@' ∨ c = '.')
  ∧ ∀ l r a b, s = l ++ a :: b :: r →
      ¬((a = '.' ∧ b = '.') ∨ (a = '@' ∧ b = '@')
        ∨ (a = '@' ∧ b = '.') ∨ (a = '.' ∧ b = '@'))

/-- Spec characterization of a URL accepted by the regex and the two
substring guards (default build: exclusion substring `spoo.me`). -/
def urlSpec (s : Str) : Prop :=
  (∃ scheme rest,
      (scheme = "ftp".toList ∨ scheme = "http".toList ∨ scheme = "https".toList)
      ∧ s = scheme ++ ':' :: '/' :: '/' :: rest
      ∧ rest ≠ [] ∧ ∀ c ∈ rest, c ≠ ' ' ∧ c ≠ '"')
  ∧ ¬(∃ l r, s = l ++ "spoo.me".toList ++ r)
  ∧ ¬(∃ l r, s = l ++ '.' :: '.' :: r)

/-- Spec character class for aliases: ASCII letter, ASCII digit, underscore
or hyphen. -/
def aliasCharSpec (c : Char) : Prop :=
  ('a' ≤ c ∧ c ≤ 'z') ∨ ('A' ≤ c ∧ c ≤ 'Z') ∨ ('0' ≤ c ∧ c ≤ '9')
    ∨ c = '_' ∨ c = '-'

/-! ### Lemmas about the string model. -/

theorem startsWith_iff (p : Str) : ∀ s : Str, startsWith p s = true ↔ ∃ r, s = p ++ r := by
  induction p with
  | nil => intro s; simp [startsWith]
  | cons a as ih =>
    intro s
    cases s with
    | nil => simp [startsWith]
    | cons c cs =>
      simp only [startsWith, Bool.and_eq_true, beq_iff_eq, ih, List.cons_append,
        List.cons.injEq]
      constructor
      · rintro ⟨rfl, r, rfl⟩
        exact ⟨r, rfl, rfl⟩
      · rintro ⟨r, rfl, rfl⟩
        exact ⟨rfl, r, rfl⟩

theorem containsSeq_iff (p : Str) : ∀ s : Str,
    containsSeq p s = true ↔ ∃ l r, s = l ++ p ++ r := by
  intro s
  induction s with
  | nil =>
    simp only [containsSeq, List.isEmpty_iff]
    constructor
    · rintro rfl
      exact ⟨[], [], rfl⟩
    · rintro ⟨l, r, h⟩
      rcases List.append_eq_nil.mp h.symm with ⟨h1, h2⟩
      exact (List.append_eq_nil.mp h1).2
  | cons c cs ih =>
    simp only [containsSeq, Bool.or_eq_true, startsWith_iff, ih]
    constructor
    · rintro (⟨r, h⟩ | ⟨l, r, h⟩)
      · exact ⟨[], r, by simpa using h⟩
      · exact ⟨c :: l, r, by simp [h]⟩
    · rintro ⟨l, r, h⟩
      cases l with
      | nil =>
        exact Or.inl ⟨r, by simpa using h⟩
      | cons a l' =>
        rw [List.cons_append, List.cons_append] at h
        injection h with h1 h2
        subst h1
        exact Or.inr ⟨l', r, h2⟩

theorem stripPre_eq_some (p : Str) : ∀ s r : Str,
    stripPre p s = some r ↔ s = p ++ r := by
  induction p with
  | nil => intro s r; simp [stripPre, eq_comm]
  | cons a as ih =>
    intro s r
    cases s with
    | nil => simp [stripPre]
    | cons c cs =>
      simp only [stripPre, List.cons_append, List.cons.injEq]
      by_cases hac : a = c
      · subst hac
        simp [ih]
      · simp only [beq_eq_false_iff_ne.mpr hac, Bool.false_eq_true, if_false,
          reduceCtorEq, false_iff, not_and]
        exact fun h _ => hac h.symm

theorem urlTail_iff (s : Str) :
    urlTail s = true ↔ s ≠ [] ∧ ∀ c ∈ s, c ≠ ' ' ∧ c ≠ '"' := by
  simp only [urlTail, Bool.and_eq_true, Bool.not_eq_true', List.isEmpty_eq_false,
    List.all_eq_true, Bool.or_eq_false_iff, beq_eq_false_iff_ne]

theorem isUpper_iff (c : Char) : c.isUpper = true ↔ 'A' ≤ c ∧ c ≤ 'Z' := by
  simp only [Char.isUpper, Bool.and_eq_true, decide_eq_true_iff, ge_iff_le]
  exact Iff.rfl

theorem isLower_iff (c : Char) : c.isLower = true ↔ 'a' ≤ c ∧ c ≤ 'z' := by
  simp only [Char.isLower, Bool.and_eq_true, decide_eq_true_iff, ge_iff_le]
  exact Iff.rfl

theorem isDigit_iff (c : Char) : c.isDigit = true ↔ '0' ≤ c ∧ c ≤ '9' := by
  simp only [Char.isDigit, Bool.and_eq_true, decide_eq_true_iff, ge_iff_le]
  exact Iff.rfl

theorem aliasCharOk_iff (c : Char) : aliasCharOk c = true ↔ aliasCharSpec c := by
  simp only [aliasCharOk, Char.isAlpha, Bool.or_eq_true, beq_iff_eq,
    isUpper_iff, isLower_iff, isDigit_iff, aliasCharSpec]
  tauto

theorem utf8Size_one (c : Char) (h : c.val ≤ 127) : Char.utf8Size c = 1 := by
  have h127 : c.val ≤ UInt32.ofNatCore 0x7F (by decide) := h
  unfold Char.utf8Size
  rw [if_pos h127]

theorem utf8Size_eq_one_of_aliasCharOk (c : Char) (h : aliasCharOk c = true) :
    Char.utf8Size c = 1 := by
  apply utf8Size_one
  rcases (aliasCharOk_iff c).mp h with ⟨h1, h2⟩ | ⟨h1, h2⟩ | ⟨h1, h2⟩ | rfl | rfl
  · exact UInt32.le_trans h2 (by decide)
  · exact UInt32.le_trans h2 (by decide)
  · exact UInt32.le_trans h2 (by decide)
  · decide
  · decide

theorem rustStrLen_eq_length (s : Str) (h : ∀ c ∈ s, aliasCharOk c = true) :
    rustStrLen s = s.length := by
  induction s with
  | nil => rfl
  | cons c cs ih =>
    have hc := utf8Size_eq_one_of_aliasCharOk c (h c (by simp))
    simp only [rustStrLen, List.map_cons, List.sum_cons, List.length_cons] at *
    rw [hc, ih (fun d hd => h d (by simp [hd]))]
    omega

/-! ### Claim theorems. -/

/-- Claim C1: for every string `s`, `is_valid_password(s)` returns true iff
`s` has length ≥ 8 (UTF-8 bytes, as Rust `str::len` counts), contains at least
one alphabetic character, at least one ASCII digit, at least one of `@` or
`.`, and contains none of the adjacent pairs `..`, `@@`, `@.`, `.@`; in
particular every string of length < 8 is rejected.  Stated for every
alphabetic classifier `isAlph` (the embedding of `char::is_alphabetic`). -/
theorem claim_C1_password_validator (isAlph : Char → Bool) (s : Str) :
    (is_valid_password isAlph s = true ↔ passwordSpec isAlph s)
    ∧ (rustStrLen s < 8 → is_valid_password isAlph s = false) := by
  have hpair : ∀ a b : Char, containsSeq [a, b] s = true ↔ ∃ l r, s = l ++ a :: b :: r := by
    intro a b
    simpa using containsSeq_iff [a, b] s
  have hunfold : is_valid_password isAlph s = true ↔
      (8 ≤ rustStrLen s ∧ (∃ c ∈ s, isAlph c = true) ∧ (∃ c ∈ s, c.isDigit = true)
        ∧ (∃ c ∈ s, c = '@' ∨ c = '.')
        ∧ ¬(∃ l r, s = l ++ '.' :: '.' :: r) ∧ ¬(∃ l r, s = l ++ '@' :: '@' :: r)
        ∧ ¬(∃ l r, s = l ++ '@' :: '.' :: r) ∧ ¬(∃ l r, s = l ++ '.' :: '@' :: r)) := by
    have e1 : ("..".toList) = ['.', '.'] := rfl
    have e2 : ("@@".toList) = ['@', '@'] := rfl
    have e3 : ("@.".toList) = ['@', '.'] := rfl
    have e4 : (".@".toList) = ['.', '@'] := rfl
    simp only [is_valid_password, Bool.and_eq_true, List.any_eq_true, Bool.or_eq_true,
      beq_iff_eq, Bool.not_eq_true', decide_eq_true_iff, e1, e2, e3, e4,
      Bool.eq_false_iff, Ne, hpair, and_assoc]
  constructor
  · rw [hunfold]
    unfold passwordSpec
    constructor
    · rintro ⟨h1, h2, h3, h4, h5, h6, h7, h8⟩
      refine ⟨h1, h2, ?_, h4, ?_⟩
      · rcases h3 with ⟨c, hc, hd⟩
        exact ⟨c, hc, (isDigit_iff c).mp hd⟩
      · rintro l r a b rfl (⟨rfl, rfl⟩ | ⟨rfl, rfl⟩ | ⟨rfl, rfl⟩ | ⟨rfl, rfl⟩)
        · exact h5 ⟨l, r, rfl⟩
        · exact h6 ⟨l, r, rfl⟩
        · exact h7 ⟨l, r, rfl⟩
        · exact h8 ⟨l, r, rfl⟩
    · rintro ⟨h1, h2, h3, h4, h5⟩
      refine ⟨h1, h2, ?_, h4, ?_, ?_, ?_, ?_⟩
      · rcases h3 with ⟨c, hc, hd⟩
        exact ⟨c, hc, (isDigit_iff c).mpr hd⟩
      · rintro ⟨l, r, rfl⟩
        exact h5 l r '.' '.' rfl (Or.inl ⟨rfl, rfl⟩)
      · rintro ⟨l, r, rfl⟩
        exact h5 l r '@' '@' rfl (Or.inr (Or.inl ⟨rfl, rfl⟩))
      · rintro ⟨l, r, rfl⟩
        exact h5 l r '@' '.' rfl (Or.inr (Or.inr (Or.inl ⟨rfl, rfl⟩)))
      · rintro ⟨l, r, rfl⟩
        exact h5 l r '.' '@' rfl (Or.inr (Or.inr (Or.inr ⟨rfl, rfl⟩)))
  · intro hlt
    rcases h : is_valid_password isAlph s with _ | _
    · rfl
    · exact absurd (hunfold.mp h).1 (by omega)

/-- Claim C8: for every string `s`, `is_valid_alias(s)` returns true iff `s`
is non-empty, has at most 15 characters, and every character is an ASCII
letter, ASCII digit, underscore or hyphen. -/
theorem claim_C8_alias_validator (s : Str) :
    is_valid_alias s = true ↔ s ≠ [] ∧ s.length ≤ 15 ∧ ∀ c ∈ s, aliasCharSpec c := by
  simp only [is_valid_alias, Bool.and_eq_true, List.all_eq_true, Bool.not_eq_true',
    List.isEmpty_eq_false, decide_eq_true_iff]
  constructor
  · rintro ⟨⟨hall, hne⟩, hlen⟩
    refine ⟨hne, ?_, fun c hc => (aliasCharOk_iff c).mp (hall c hc)⟩
    rw [← rustStrLen_eq_length s hall]
    exact hlen
  · rintro ⟨hne, hlen, hspec⟩
    have hall : ∀ c ∈ s, aliasCharOk c = true :=
      fun c hc => (aliasCharOk_iff c).mpr (hspec c hc)
    refine ⟨⟨hall, hne⟩, ?_⟩
    rw [rustStrLen_eq_length s hall]
    exact hlen

/-- Claim C7: with no custom base URL configured, `is_valid_url(s)` returns
true iff `s` is an `ftp`/`http`/`https` scheme followed by `://` and one or
more characters none of which is a space or a double quote, `s` does not
contain `spoo.me` as a substring, and `s` does not contain `..`. -/
theorem claim_C7_url_validator (s : Str) :
    is_valid_url s = true ↔ urlSpec s := by
  have hm : ∀ p : Str, (match stripPre p s with
      | some rest => urlTail rest
      | none => false) = true ↔ ∃ rest, s = p ++ rest ∧ urlTail rest = true := by
    intro p
    cases h : stripPre p s with
    | none =>
      simp only [Bool.false_eq_true, false_iff, not_exists, not_and]
      intro rest hs
      have := (stripPre_eq_some p s rest).mpr hs
      rw [h] at this
      cases this
    | some r =>
      have hr := (stripPre_eq_some p s r).mp h
      constructor
      · intro ht
        exact ⟨r, hr, ht⟩
      · rintro ⟨rest, hs, ht⟩
        have hre : r = rest := List.append_cancel_left (hr.symm.trans hs)
        rw [hre]
        exact ht
  have h1 : urlRegexMatch s = true ↔
      (∃ scheme rest,
        (scheme = "ftp".toList ∨ scheme = "http".toList ∨ scheme = "https".toList)
        ∧ s = scheme ++ ':' :: '/' :: '/' :: rest
        ∧ rest ≠ [] ∧ ∀ c ∈ rest, c ≠ ' ' ∧ c ≠ '"') := by
    simp only [urlRegexMatch, Bool.or_eq_true, hm]
    constructor
    · rintro ((⟨rest, hs, ht⟩ | ⟨rest, hs, ht⟩) | ⟨rest, hs, ht⟩)
      · exact ⟨"ftp".toList, rest, Or.inl rfl, hs,
          ((urlTail_iff rest).mp ht).1, ((urlTail_iff rest).mp ht).2⟩
      · exact ⟨"http".toList, rest, Or.inr (Or.inl rfl), hs,
          ((urlTail_iff rest).mp ht).1, ((urlTail_iff rest).mp ht).2⟩
      · exact ⟨"https".toList, rest, Or.inr (Or.inr rfl), hs,
          ((urlTail_iff rest).mp ht).1, ((urlTail_iff rest).mp ht).2⟩
    · rintro ⟨scheme, rest, (rfl | rfl | rfl), hs, hne, hchars⟩
      · exact Or.inl (Or.inl ⟨rest, hs, (urlTail_iff rest).mpr ⟨hne, hchars⟩⟩)
      · exact Or.inl (Or.inr ⟨rest, hs, (urlTail_iff rest).mpr ⟨hne, hchars⟩⟩)
      · exact Or.inr ⟨rest, hs, (urlTail_iff rest).mpr ⟨hne, hchars⟩⟩
  have e1 : ("..".toList) = ['.', '.'] := rfl
  simp only [is_valid_url, Bool.and_eq_true, h1, Bool.not_eq_true', Bool.eq_false_iff,
    Ne, containsSeq_iff, urlSpec, e1, and_assoc, List.append_assoc, List.cons_append,
    List.nil_append]

theorem orElseErr_eq_none (x y : Option ValidationError) :
    orElseErr x y = none ↔ x = none ∧ y = none := by
  cases x <;> simp [orElseErr]

theorem orElseErr_eq_some (x y : Option ValidationError) (e : ValidationError)
    (h : orElseErr x y = some e) : x = some e ∨ y = some e := by
  cases x with
  | none => exact Or.inr h
  | some a => exact Or.inl h

theorem pwCheck_ne_emoji (isAlph : Char → Bool) (o : Option Str) (x : Str) :
    pwCheck isAlph o ≠ some (ValidationError.InvalidEmojiSequence x) := by
  cases o with
  | none => simp [pwCheck]
  | some pw =>
    by_cases h : is_valid_password isAlph pw <;> simp [pwCheck, h]

theorem aliasCheck_ne_emoji (o : Option Str) (x : Str) :
    aliasCheck o ≠ some (ValidationError.InvalidEmojiSequence x) := by
  cases o with
  | none => simp [aliasCheck]
  | some a =>
    by_cases h : is_valid_alias a <;> simp [aliasCheck, h]

theorem maxClicksCheck_ne_emoji (o : Option Nat) (x : Str) :
    maxClicksCheck o ≠ some (ValidationError.InvalidEmojiSequence x) := by
  cases o with
  | none => simp [maxClicksCheck]
  | some n =>
    by_cases h : is_valid_max_clicks n <;> simp [maxClicksCheck, h]

theorem urlCheck_ne_emoji (u : Str) (x : Str) :
    urlCheck u ≠ some (ValidationError.InvalidEmojiSequence x) := by
  by_cases h : is_valid_url u <;> simp [urlCheck, h]

/-- Claim C6: for every operation, async or blocking, an HTTP 429 response is
classified as the rate-limit error whatever the body holds; the body is never
consulted. -/
theorem claim_C6_rate_limit (body : Body) :
    shortenClassify 429 body = some (ErrorResult.Api ApiError.RateLimitExceeded)
    ∧ shortenBlockingClassify 429 body = some (ErrorResult.Api ApiError.RateLimitExceeded)
    ∧ emojiClassify 429 body = some (ErrorResult.Api ApiError.RateLimitExceeded)
    ∧ emojiBlockingClassify 429 body = some (ErrorResult.Api ApiError.RateLimitExceeded)
    ∧ statsClassify 429 body = some (ErrorResult.Api ApiError.RateLimitExceeded)
    ∧ statsBlockingClassify 429 body = some (ErrorResult.Api ApiError.RateLimitExceeded)
    ∧ exportClassify 429 body = some (ErrorResult.Api ApiError.RateLimitExceeded)
    ∧ exportBlockingClassify 429 body = some (ErrorResult.Api ApiError.RateLimitExceeded) :=
  ⟨rfl, rfl, rfl, rfl, rfl, rfl, rfl, rfl⟩

/-- Claim C2 (refuted on the code): `shorten` classifies a non-success,
non-429 response whose `error` label is unrecognized as the specific
`UrlError` kind, not as the generic `Other` kind carrying the raw string. -/
theorem claim_C2_shorten_unknown_label :
    shortenClassify 400 (Body.errJson ("SomeOtherError".toList))
      = some (ErrorResult.Api ApiError.UrlError)
    ∧ ErrorResult.Api ApiError.UrlError
      ≠ ErrorResult.Api (ApiError.Other ("SomeOtherError".toList)) :=
  ⟨by decide, by decide⟩

/-- Claim C3 (refuted on the code): on the same 400 response with an
unrecognized `error` label, `emoji` returns the generic `Other` kind while
`emoji_blocking` returns `UrlError` — the two variants are not behaviorally
identical. -/
theorem claim_C3_emoji_pair_diverges :
    emojiClassify 400 (Body.errJson ("UnknownKind".toList))
      = some (ErrorResult.Api (ApiError.Other ("UnknownKind".toList)))
    ∧ emojiBlockingClassify 400 (Body.errJson ("UnknownKind".toList))
      = some (ErrorResult.Api ApiError.UrlError)
    ∧ emojiClassify 400 (Body.errJson ("UnknownKind".toList))
      ≠ emojiBlockingClassify 400 (Body.errJson ("UnknownKind".toList)) :=
  ⟨by decide, by decide, by decide⟩

/-- Claim C5 (refuted on the code): a stats request with an empty short code
is rejected through the `InvalidPasswordFormat` variant carrying a fixed
message — not through the alias/short-code variant carrying the offending
short code. -/
theorem claim_C5_stats_empty_short_code :
    statsValidate Char.isAlpha { short_code := [], password := none }
      = some (ValidationError.InvalidPasswordFormat ("Short code cannot be empty".toList))
    ∧ ∀ sc, ValidationError.InvalidPasswordFormat ("Short code cannot be empty".toList)
        ≠ ValidationError.InvalidAliasFormat sc :=
  ⟨rfl, fun _ h => ValidationError.noConfusion h⟩

/-- Claim C4 (refuted for export): an export request whose password fails
`is_valid_password` nevertheless passes export's local validation — no
validation error is raised and the request proceeds to the network. -/
theorem claim_C4_export_password_not_validated :
    is_valid_password Char.isAlpha ("short".toList) = false
    ∧ exportValidate ⟨"abc".toList, ExportFormat.JSON, some ("short".toList)⟩ = none :=
  ⟨by decide, rfl⟩

/-- Claim C4 (amended): for shorten, emoji and stats (the async and blocking
validation prologues are textually identical), a request whose password is
present and fails `is_valid_password` is rejected with the password validation
error carrying the offending value, before any network call; `export` performs
no password validation at all. -/
theorem claim_C4_amended_password_validation (isAlph : Char → Bool) (pw : Str)
    (h : is_valid_password isAlph pw = false) :
    (∀ req : ShortenRequest, req.password = some pw →
      shortenValidate isAlph req = some (ValidationError.InvalidPasswordFormat pw))
    ∧ (∀ req : EmojiRequest, req.password = some pw →
      emojiValidate isAlph req = some (ValidationError.InvalidPasswordFormat pw))
    ∧ (∀ req : StatsRequest, req.password = some pw → req.short_code ≠ [] →
      statsValidate isAlph req = some (ValidationError.InvalidPasswordFormat pw))
    ∧ (∀ (req : ExportRequest) (x : Str),
      exportValidate req ≠ some (ValidationError.InvalidPasswordFormat x)) := by
  have hpw : pwCheck isAlph (some pw) = some (ValidationError.InvalidPasswordFormat pw) := by
    simp [pwCheck, h]
  refine ⟨?_, ?_, ?_, ?_⟩
  · intro req hreq
    simp [shortenValidate, hreq, hpw, orElseErr]
  · intro req hreq
    simp [emojiValidate, hreq, hpw, orElseErr]
  · intro req hreq hne
    have hemp : req.short_code.isEmpty = false := by
      simpa [List.isEmpty_eq_false] using hne
    simp [statsValidate, hemp, hreq, hpw, orElseErr]
  · intro req x
    unfold exportValidate
    split_ifs <;> simp

/-- Witness for the amended claim C4 at concrete inputs: a shorten request
with password `short` is rejected with the password error before any network
call. -/
theorem claim_C4_amended_witness :
    shortenValidate Char.isAlpha
      ⟨"https://example.com".toList, none, some ("short".toList), none, none⟩
      = some (ValidationError.InvalidPasswordFormat ("short".toList)) :=
  (claim_C4_amended_password_validation Char.isAlpha ("short".toList) (by decide)).1
    ⟨"https://example.com".toList, none, some ("short".toList), none, none⟩ rfl

/-- Claim C9: `is_valid_max_clicks(n)` is true iff `n > 0`; `0` is rejected
and `1` accepted; and the shorten/emoji validations never pass a request whose
present `max_clicks` fails the check. -/
theorem claim_C9_max_clicks :
    (∀ n, is_valid_max_clicks n = true ↔ 0 < n)
    ∧ is_valid_max_clicks 0 = false
    ∧ is_valid_max_clicks 1 = true
    ∧ (∀ (isAlph : Char → Bool) (req : ShortenRequest) n, req.max_clicks = some n →
        is_valid_max_clicks n = false → shortenValidate isAlph req ≠ none)
    ∧ (∀ (isAlph : Char → Bool) (req : EmojiRequest) n, req.max_clicks = some n →
        is_valid_max_clicks n = false → emojiValidate isAlph req ≠ none) := by
  refine ⟨fun n => by simp [is_valid_max_clicks], rfl, rfl, ?_, ?_⟩
  · intro isAlph req n hmc hbad hnone
    rw [shortenValidate] at hnone
    rcases (orElseErr_eq_none _ _).mp hnone with ⟨_, h2⟩
    rcases (orElseErr_eq_none _ _).mp h2 with ⟨_, h3⟩
    rcases (orElseErr_eq_none _ _).mp h3 with ⟨_, h4⟩
    rw [hmc] at h4
    simp [maxClicksCheck, hbad] at h4
  · intro isAlph req n hmc hbad hnone
    rw [emojiValidate] at hnone
    rcases (orElseErr_eq_none _ _).mp hnone with ⟨_, h2⟩
    rcases (orElseErr_eq_none _ _).mp h2 with ⟨_, h3⟩
    rw [hmc] at h3
    simp [maxClicksCheck, hbad] at h3

/-- Witness for claim C9: a shorten request with `max_clicks = 0` does not
pass validation. -/
theorem claim_C9_witness :
    shortenValidate Char.isAlpha
      ⟨"https://example.com".toList, none, none, some 0, none⟩ ≠ none :=
  claim_C9_max_clicks.2.2.2.1 Char.isAlpha
    ⟨"https://example.com".toList, none, none, some 0, none⟩ 0 rfl (by decide)

/-- Claim C10: the emoji operations never validate the emoji sequence — an
emoji request whose password, URL and max-clicks pass their checks passes
validation whatever `emojies` holds — and no operation's validation ever
produces the `InvalidEmojiSequence` variant. -/
theorem claim_C10_emoji_sequence_never_validated :
    (∀ (isAlph : Char → Bool) (req : EmojiRequest),
      (∀ pw ∈ req.password, is_valid_password isAlph pw = true) →
      is_valid_url req.url = true →
      (∀ n ∈ req.max_clicks, is_valid_max_clicks n = true) →
      emojiValidate isAlph req = none)
    ∧ (∀ (isAlph : Char → Bool) (req : ShortenRequest) (x : Str),
        shortenValidate isAlph req ≠ some (ValidationError.InvalidEmojiSequence x))
    ∧ (∀ (isAlph : Char → Bool) (req : EmojiRequest) (x : Str),
        emojiValidate isAlph req ≠ some (ValidationError.InvalidEmojiSequence x))
    ∧ (∀ (isAlph : Char → Bool) (req : StatsRequest) (x : Str),
        statsValidate isAlph req ≠ some (ValidationError.InvalidEmojiSequence x))
    ∧ (∀ (req : ExportRequest) (x : Str),
        exportValidate req ≠ some (ValidationError.InvalidEmojiSequence x)) := by
  refine ⟨?_, ?_, ?_, ?_, ?_⟩
  · intro isAlph req hpw hurl hmc
    have h1 : pwCheck isAlph req.password = none := by
      cases hp : req.password with
      | none => simp [pwCheck]
      | some pw => simp [pwCheck, hpw pw (by simp [hp])]
    have h2 : urlCheck req.url = none := by simp [urlCheck, hurl]
    have h3 : maxClicksCheck req.max_clicks = none := by
      cases hm : req.max_clicks with
      | none => simp [maxClicksCheck]
      | some n => simp [maxClicksCheck, hmc n (by simp [hm])]
    simp [emojiValidate, h1, h2, h3, orElseErr]
  · intro isAlph req x h
    rcases orElseErr_eq_some _ _ _ h with h1 | h1
    · exact pwCheck_ne_emoji isAlph req.password x h1
    rcases orElseErr_eq_some _ _ _ h1 with h2 | h2
    · exact urlCheck_ne_emoji req.url x h2
    rcases orElseErr_eq_some _ _ _ h2 with h3 | h3
    · exact aliasCheck_ne_emoji req.«alias» x h3
    · exact maxClicksCheck_ne_emoji req.max_clicks x h3
  · intro isAlph req x h
    rcases orElseErr_eq_some _ _ _ h with h1 | h1
    · exact pwCheck_ne_emoji isAlph req.password x h1
    rcases orElseErr_eq_some _ _ _ h1 with h2 | h2
    · exact urlCheck_ne_emoji req.url x h2
    · exact maxClicksCheck_ne_emoji req.max_clicks x h2
  · intro isAlph req x h
    rw [statsValidate] at h
    by_cases hemp : req.short_code.isEmpty
    · rw [if_pos hemp] at h
      exact ValidationError.noConfusion (Option.some.inj h)
    · rw [if_neg hemp] at h
      rcases orElseErr_eq_some _ _ _ h with h1 | h1
      · exact pwCheck_ne_emoji isAlph req.password x h1
      · by_cases ha : is_valid_alias req.short_code
        · rw [if_pos ha] at h1
          cases h1
        · rw [if_neg ha] at h1
          exact ValidationError.noConfusion (Option.some.inj h1)
  · intro req x h
    rw [exportValidate] at h
    by_cases hemp : req.short_code.isEmpty
    · rw [if_pos hemp] at h
      exact ValidationError.noConfusion (Option.some.inj h)
    · rw [if_neg hemp] at h
      by_cases ha : is_valid_alias req.short_code
      · rw [if_pos ha] at h
        cases h
      · rw [if_neg ha] at h
        exact ValidationError.noConfusion (Option.some.inj h)

/-- Witness for claim C10: an emoji request with a valid URL, no password and
no max-clicks passes validation whatever its emoji sequence holds. -/
theorem claim_C10_witness :
    emojiValidate Char.isAlpha
      ⟨"https://example.com".toList, some ("not validated".toList), none, none, none⟩
      = none :=
  claim_C10_emoji_sequence_never_validated.1 Char.isAlpha
    ⟨"https://example.com".toList, some ("not validated".toList), none, none, none⟩
    (by simp) (by decide) (by simp)

/-- Witness for claim C1 at a concrete input: a 5-byte password is rejected. -/
theorem claim_C1_witness :
    is_valid_password Char.isAlpha ("short".toList) = false :=
  (claim_C1_password_validator Char.isAlpha ("short".toList)).2 (by decide)

end SpooMe
